import Mathlib

/-!
Shallow embedding of the chunk-keyed XOR stream decoder validation logic
(`test_xor_decryption.py`) and of the benchmark-filter updater
(`scripts/shared/update-core-benchmark-filters.py`), together with theorems
checking the specification's claims against it.

Bytes are modelled as `Nat` values below 256; 32-bit words as `Nat` values
below 2^32. The codec proper (`ChunkedXorCodec.decrypt`) and the scanner's
record-walking rule are not part of the validation sources, so they are
modelled from the specification and marked as such in their doc comments.
-/

/-- Embeds `XOR_KEY1 = [0x84, 0x22, 0xe9, 0xad]`. -/
def XOR_KEY1 : List Nat := [0x84, 0x22, 0xe9, 0xad]

/-- Embeds `XOR_KEY2 = [0xb7, 0x8f, 0xff, 0x14]`. -/
def XOR_KEY2 : List Nat := [0xb7, 0x8f, 0xff, 0x14]

/-- Embeds `ENCRYPTED_MAGIC = [0x7d, 0x9c, 0x5d, 0x74]`. -/
def ENCRYPTED_MAGIC : List Nat := [0x7d, 0x9c, 0x5d, 0x74]

/-- Embeds `EXPECTED_MAGIC = [0xf9, 0xbe, 0xb4, 0xd9]` (Bitcoin mainnet magic). -/
def EXPECTED_MAGIC : List Nat := [0xf9, 0xbe, 0xb4, 0xd9]

/-- Embeds `u32_from_bytes`: `struct.unpack('<I', bytes(b))[0]`, the
little-endian interpretation of a 4-byte sequence. -/
def u32_from_bytes (b : List Nat) : Nat :=
  b.getD 0 0 + 256 * b.getD 1 0 + 65536 * b.getD 2 0 + 16777216 * b.getD 3 0

/-- Embeds `bytes_from_u32`: `list(struct.pack('<I', v))`, the four
little-endian base-256 digits of a 32-bit value. -/
def bytes_from_u32 (v : Nat) : List Nat :=
  [v % 256, v / 256 % 256, v / 65536 % 256, v / 16777216 % 256]

/-- Modelled from the spec: the key selection rule of `ChunkedXorCodec`
(data model / algorithm step 3), which is not itself among the validation
sources — an even chunk index selects `XOR_KEY1`, an odd one `XOR_KEY2`. -/
def selectKey (chunk : Nat) : List Nat :=
  if chunk % 2 == 0 then XOR_KEY1 else XOR_KEY2

/-- Modelled from the spec: the key byte XORed against the stream byte at
absolute position `p` (algorithm steps 2-4): chunk `p / 4`, byte-in-chunk
`p % 4`. -/
def keyByte (p : Nat) : Nat :=
  (selectKey (p / 4)).getD (p % 4) 0

/-- Modelled from the spec: the per-byte reference decryption loop of
`ChunkedXorCodec.decrypt`, walking the slice while tracking the absolute
stream position of the current byte. -/
def decryptFrom (p : Nat) : List Nat → List Nat
  | [] => []
  | x :: rest => (x ^^^ keyByte p) :: decryptFrom (p + 1) rest

/-- Modelled from the spec: `ChunkedXorCodec.decrypt(bytes, absolute_offset)`
— byte `i` of the slice is XORed with `keyByte (absolute_offset + i)`. -/
def decrypt (b : List Nat) (absolute_offset : Nat) : List Nat :=
  decryptFrom absolute_offset b

/-- Embeds the byte-by-byte method of `test_byte_by_byte_vs_u32`
(lines 141-146), generalized over the test's fixed `test_data` and
`file_offset`: one key is chosen from the parity of `file_offset // 4` and
the loop `for i in range(4)` XORs byte `i` with
`key[(file_offset + i) % 4]`. -/
def byteByByteDecrypt (data : List Nat) (file_offset : Nat) : List Nat :=
  let key := if (file_offset / 4) % 2 == 0 then XOR_KEY1 else XOR_KEY2
  (List.range 4).map (fun i => data.getD i 0 ^^^ key.getD ((file_offset + i) % 4) 0)

/-- Embeds the u32 XOR method of `test_byte_by_byte_vs_u32` (lines 148-156),
generalized over the test's fixed `test_data` and `file_offset`. -/
def u32Decrypt (data : List Nat) (file_offset : Nat) : List Nat :=
  let key_u32 := if (file_offset / 4) % 2 == 0 then u32_from_bytes XOR_KEY1
    else u32_from_bytes XOR_KEY2
  bytes_from_u32 (u32_from_bytes data ^^^ key_u32)

/-- Embeds `test_magic_decryption` (lines 18-50): decrypt the encrypted magic
at file offset 0 with the u32 method and compare against `EXPECTED_MAGIC`. -/
def test_magic_decryption : Bool :=
  let magic_start_pos := 0
  let key_u32 := if (magic_start_pos / 4) % 2 == 0 then u32_from_bytes XOR_KEY1
    else u32_from_bytes XOR_KEY2
  let decrypted_magic := bytes_from_u32 (u32_from_bytes ENCRYPTED_MAGIC ^^^ key_u32)
  decrypted_magic == EXPECTED_MAGIC

/-- Embeds the `test_cases` list of `test_size_decryption` (lines 59-63):
`(magic_start_pos, size_offset)` pairs. -/
def size_test_cases : List (Nat × Nat) := [(0, 4), (100, 104), (200, 204)]

/-- Embeds one iteration of the loop of `test_size_decryption` (lines 66-96):
encrypt the known size 1000 at `size_offset`, decrypt it again with the same
key, and compare with the original. -/
def size_round_trip (size_offset : Nat) : Bool :=
  let known_size := 1000
  let known_size_bytes := bytes_from_u32 known_size
  let key_u32 := if (size_offset / 4) % 2 == 0 then u32_from_bytes XOR_KEY1
    else u32_from_bytes XOR_KEY2
  let encrypted_size_u32 := u32_from_bytes known_size_bytes ^^^ key_u32
  let decrypted_size := encrypted_size_u32 ^^^ key_u32
  decrypted_size == known_size

/-- Embeds `test_size_decryption` (lines 52-98): `all_pass` is the
conjunction of the round trips over all of `size_test_cases`. -/
def test_size_decryption : Bool :=
  size_test_cases.all (fun tc => size_round_trip tc.2)

/-- Embeds the key naming of `test_key_rotation` (lines 108-121): chunk from
the offset, key name from chunk parity. -/
def keyName (offset : Nat) : String :=
  let chunk := offset / 4
  if chunk % 2 == 0 then "KEY1" else "KEY2"

/-- Embeds `test_key_rotation` (lines 100-128): the names selected for
offsets `range(0, 32, 4)` must form the expected alternating pattern. -/
def test_key_rotation : Bool :=
  let expected := ["KEY1", "KEY2", "KEY1", "KEY2", "KEY1", "KEY2", "KEY1", "KEY2"]
  let actual := (List.range' 0 8 4).map keyName
  actual == expected

/-- Embeds `test_byte_by_byte_vs_u32` (lines 130-169): both methods applied
to `[0x12, 0x34, 0x56, 0x78]` at file offset 4 must agree. -/
def test_byte_by_byte_vs_u32 : Bool :=
  let test_data := [0x12, 0x34, 0x56, 0x78]
  let file_offset := 4
  byteByByteDecrypt test_data file_offset == u32Decrypt test_data file_offset

/-- Embeds the `__main__` results list (lines 174-178). -/
def main_results : List (String × Bool) :=
  [("Magic Decryption", test_magic_decryption),
   ("Size Decryption", test_size_decryption),
   ("Key Rotation", test_key_rotation),
   ("Byte-by-byte vs u32", test_byte_by_byte_vs_u32)]

/-- Embeds the summary loop (lines 183-188): `all_pass` starts `True` and is
set to `False` at each failing entry. -/
def all_pass (results : List (String × Bool)) : Bool :=
  results.foldl (fun acc r => if r.2 then acc else false) true

/-- Embeds the exit decision (lines 191-196): status 0 when `all_pass` holds,
status 1 otherwise. -/
def summary_exit_code (results : List (String × Bool)) : Nat :=
  if all_pass results then 0 else 1

/-- Embeds the exit status of the whole `__main__` run. -/
def main_exit_code : Nat := summary_exit_code main_results

/-- Modelled from the spec: the `ContainerScanner` record-walking rule
(`next_offset = this_offset + 8 + declared_length`); the scanner is not
itself among the validation sources. -/
def next_offset (this_offset declared_length : Nat) : Nat :=
  this_offset + 8 + declared_length

/-- C4: decrypting the encrypted magic `[0x7d, 0x9c, 0x5d, 0x74]` at absolute
offset 0 (chunk 0, hence `XOR_KEY1`) yields the expected magic
`[0xf9, 0xbe, 0xb4, 0xd9]`, both for the reference per-byte decryption and
for the embedded `test_magic_decryption`. -/
theorem C4_magic_known_vector :
    decrypt ENCRYPTED_MAGIC 0 = EXPECTED_MAGIC ∧ test_magic_decryption = true := by
  decide

/-- C6: encrypting the 32-bit value 1000 at the size-field offsets 4, 104 and
204 with the chunk-parity key and decrypting at the same offset yields 1000
again, and the embedded `test_size_decryption` passes. -/
theorem C6_size_round_trip :
    size_round_trip 4 = true ∧ size_round_trip 104 = true ∧
    size_round_trip 204 = true ∧ test_size_decryption = true := by
  decide

/-- C7 counterexample: the hard-coded size-field test offsets are 4, 104 and
204, and it is not the case that each of them is non-4-aligned — in fact
none of them is (4 % 4 = 0 already refutes the claim as stated). -/
theorem C7_counterexample :
    size_test_cases.map Prod.snd = [4, 104, 204] ∧
    (size_test_cases.map Prod.snd).all (fun o => o % 4 != 0) = false := by
  decide

/-- C7 (amended): the source validation logic hard-codes exactly three
size-field test offsets, and each of them is 4-aligned (a multiple of 4). -/
theorem C7_amended_aligned_offsets :
    size_test_cases.length = 3 ∧
    (size_test_cases.map Prod.snd).all (fun o => o % 4 == 0) = true := by
  decide

/-- C8: scanning a header at offset 100 with declared length 50 probes the
next header at `100 + 8 + 50 = 158`; chunk `158 / 4 = 39` is odd, so the key
re-derived there is `XOR_KEY2`. -/
theorem C8_scan_next_offset :
    next_offset 100 50 = 158 ∧ 158 / 4 = 39 ∧ 39 % 2 = 1 ∧
    selectKey (next_offset 100 50 / 4) = XOR_KEY2 ∧
    keyName (next_offset 100 50) = "KEY2" := by
  decide

theorem decryptFrom_getD (b : List Nat) :
    ∀ p i, i < b.length →
      (decryptFrom p b).getD i 0 = b.getD i 0 ^^^ keyByte (p + i) := by
  induction b with
  | nil => intro p i h; simp at h
  | cons x rest ih =>
    intro p i h
    cases i with
    | zero => simp [decryptFrom]
    | succ j =>
      have hj : j < rest.length := by simpa using h
      have := ih (p + 1) j hj
      simpa [decryptFrom, Nat.add_assoc, Nat.add_comm 1 j] using this

/-- C1: decryption is an involution — decrypting the result of decrypting a
byte sequence at offset `o`, again at the same offset `o`, yields the
original sequence. -/
theorem C1_decrypt_involution (b : List Nat) (o : Nat) :
    decrypt (decrypt b o) o = b := by
  unfold decrypt
  induction b generalizing o with
  | nil => rfl
  | cons x rest ih => simp [decryptFrom, Nat.xor_cancel_right, ih]

/-- C3: in the per-byte decryption, byte `i` of the slice is XORed with the
key byte chosen from its own absolute stream position `o + i`; in
particular, a slice starting at offset 2 with length 4 uses bytes 2 and 3 of
`XOR_KEY1` (chunk 0) for its first two bytes and bytes 0 and 1 of `XOR_KEY2`
(chunk 1) for its last two, inside a single call. -/
theorem C3_per_byte_own_chunk (b : List Nat) (o : Nat) :
    (∀ i, i < b.length →
      (decrypt b o).getD i 0 = b.getD i 0 ^^^ keyByte (o + i)) ∧
    (∀ b0 b1 b2 b3 : Nat,
      decrypt [b0, b1, b2, b3] 2 =
        [b0 ^^^ XOR_KEY1.getD 2 0, b1 ^^^ XOR_KEY1.getD 3 0,
         b2 ^^^ XOR_KEY2.getD 0 0, b3 ^^^ XOR_KEY2.getD 1 0]) := by
  constructor
  · exact fun i h => decryptFrom_getD b o i h
  · intro b0 b1 b2 b3
    rfl

theorem C3_per_byte_own_chunk_witness :
    (decrypt [0x12, 0x34, 0x56, 0x78] 2).getD 1 0 = 0x34 ^^^ keyByte 3 :=
  (C3_per_byte_own_chunk [0x12, 0x34, 0x56, 0x78] 2).1 1 (by decide)

/-- C5: over the offsets 0, 4, ..., 28 the selected key names alternate
KEY1, KEY2, ..., and in general the key selected for an offset depends only
on the parity of `offset / 4`. -/
theorem C5_key_rotation (o o' : Nat) (h : o / 4 % 2 = o' / 4 % 2) :
    test_key_rotation = true ∧
    (List.range' 0 8 4).map keyName =
      ["KEY1", "KEY2", "KEY1", "KEY2", "KEY1", "KEY2", "KEY1", "KEY2"] ∧
    selectKey (o / 4) = selectKey (o' / 4) ∧ keyName o = keyName o' := by
  refine ⟨by decide, by decide, ?_, ?_⟩
  · simp [selectKey, h]
  · simp [keyName, h]

theorem C5_key_rotation_witness :
    test_key_rotation = true ∧
    (List.range' 0 8 4).map keyName =
      ["KEY1", "KEY2", "KEY1", "KEY2", "KEY1", "KEY2", "KEY1", "KEY2"] ∧
    selectKey (0 / 4) = selectKey (8 / 4) ∧ keyName 0 = keyName 8 :=
  C5_key_rotation 0 8 (by decide)

/-- C9: the summary logic exits with status 0 exactly when all four recorded
test results are true and with status 1 otherwise, and the actual run — in
which all four embedded tests pass — exits with status 0. -/
theorem C9_exit_code :
    (∀ r1 r2 r3 r4 : Bool,
      (summary_exit_code [("Magic Decryption", r1), ("Size Decryption", r2),
          ("Key Rotation", r3), ("Byte-by-byte vs u32", r4)] = 0 ↔
        (r1 = true ∧ r2 = true ∧ r3 = true ∧ r4 = true)) ∧
      (summary_exit_code [("Magic Decryption", r1), ("Size Decryption", r2),
          ("Key Rotation", r3), ("Byte-by-byte vs u32", r4)] = 1 ↔
        ¬(r1 = true ∧ r2 = true ∧ r3 = true ∧ r4 = true))) ∧
    main_exit_code = 0 ∧ test_magic_decryption = true ∧
    test_size_decryption = true ∧ test_key_rotation = true ∧
    test_byte_by_byte_vs_u32 = true := by
  refine ⟨?_, by decide, by decide, by decide, by decide, by decide⟩
  intro r1 r2 r3 r4
  cases r1 <;> cases r2 <;> cases r3 <;> cases r4 <;>
    simp [summary_exit_code, all_pass]

theorem xor_mod_two_pow (x y n : Nat) :
    (x ^^^ y) % 2 ^ n = x % 2 ^ n ^^^ y % 2 ^ n := by
  apply Nat.eq_of_testBit_eq
  intro i
  simp only [Nat.testBit_mod_two_pow, Nat.testBit_xor]
  by_cases h : i < n <;> simp [h]

theorem xor_div_two_pow (x y n : Nat) :
    (x ^^^ y) / 2 ^ n = x / 2 ^ n ^^^ y / 2 ^ n := by
  rw [← Nat.shiftRight_eq_div_pow, ← Nat.shiftRight_eq_div_pow,
    ← Nat.shiftRight_eq_div_pow]
  apply Nat.eq_of_testBit_eq
  intro i
  simp [Nat.testBit_shiftRight, Nat.testBit_xor]

theorem xor_mod_256 (x y : Nat) : (x ^^^ y) % 256 = x % 256 ^^^ y % 256 := by
  simpa using xor_mod_two_pow x y 8

theorem xor_div_256 (x y : Nat) : (x ^^^ y) / 256 = x / 256 ^^^ y / 256 := by
  simpa using xor_div_two_pow x y 8

theorem xor_div_65536 (x y : Nat) : (x ^^^ y) / 65536 = x / 65536 ^^^ y / 65536 := by
  simpa using xor_div_two_pow x y 16

theorem xor_div_16777216 (x y : Nat) :
    (x ^^^ y) / 16777216 = x / 16777216 ^^^ y / 16777216 := by
  simpa using xor_div_two_pow x y 24

theorem bytes_from_u32_xor (x y : Nat) :
    bytes_from_u32 (x ^^^ y) =
      [x % 256 ^^^ y % 256,
       x / 256 % 256 ^^^ y / 256 % 256,
       x / 65536 % 256 ^^^ y / 65536 % 256,
       x / 16777216 % 256 ^^^ y / 16777216 % 256] := by
  simp only [bytes_from_u32, xor_div_256, xor_div_65536, xor_div_16777216,
    xor_mod_256]

theorem u32_digits (b0 b1 b2 b3 : Nat) (h0 : b0 < 256) (h1 : b1 < 256)
    (h2 : b2 < 256) (h3 : b3 < 256) :
    u32_from_bytes [b0, b1, b2, b3] % 256 = b0 ∧
    u32_from_bytes [b0, b1, b2, b3] / 256 % 256 = b1 ∧
    u32_from_bytes [b0, b1, b2, b3] / 65536 % 256 = b2 ∧
    u32_from_bytes [b0, b1, b2, b3] / 16777216 % 256 = b3 := by
  simp only [u32_from_bytes, List.getD_cons_zero, List.getD_cons_succ]
  omega

/-- C2: at any 4-aligned absolute offset, decrypting a 4-byte input byte by
byte — each byte XORed with the key byte of its own chunk and position
within the chunk — produces the same four bytes as word-wise decryption,
which XORs the little-endian 32-bit interpretations of the data and of the
selected key and re-serializes little-endian; the slice-keyed byte loop of
the source test agrees as well. -/
theorem C2_bytewise_wordwise_equiv (o b0 b1 b2 b3 : Nat) (ho : o % 4 = 0)
    (h0 : b0 < 256) (h1 : b1 < 256) (h2 : b2 < 256) (h3 : b3 < 256) :
    decrypt [b0, b1, b2, b3] o = u32Decrypt [b0, b1, b2, b3] o ∧
    byteByByteDecrypt [b0, b1, b2, b3] o = u32Decrypt [b0, b1, b2, b3] o := by
  have m1 : (o + 1) % 4 = 1 := by omega
  have m2 : (o + 2) % 4 = 2 := by omega
  have m3 : (o + 3) % 4 = 3 := by omega
  have d1 : (o + 1) / 4 = o / 4 := by omega
  have d2 : (o + 2) / 4 = o / 4 := by omega
  have d3 : (o + 3) / 4 = o / 4 := by omega
  obtain ⟨e0, e1, e2, e3⟩ := u32_digits b0 b1 b2 b3 h0 h1 h2 h3
  have hd : decrypt [b0, b1, b2, b3] o =
      [b0 ^^^ keyByte o, b1 ^^^ keyByte (o + 1),
       b2 ^^^ keyByte (o + 2), b3 ^^^ keyByte (o + 3)] := rfl
  have hb : byteByByteDecrypt [b0, b1, b2, b3] o =
      [b0 ^^^ (if o / 4 % 2 == 0 then XOR_KEY1 else XOR_KEY2).getD ((o + 0) % 4) 0,
       b1 ^^^ (if o / 4 % 2 == 0 then XOR_KEY1 else XOR_KEY2).getD ((o + 1) % 4) 0,
       b2 ^^^ (if o / 4 % 2 == 0 then XOR_KEY1 else XOR_KEY2).getD ((o + 2) % 4) 0,
       b3 ^^^ (if o / 4 % 2 == 0 then XOR_KEY1 else XOR_KEY2).getD ((o + 3) % 4) 0] := rfl
  have hu : u32Decrypt [b0, b1, b2, b3] o =
      bytes_from_u32 (u32_from_bytes [b0, b1, b2, b3] ^^^
        (if o / 4 % 2 == 0 then u32_from_bytes XOR_KEY1
          else u32_from_bytes XOR_KEY2)) := rfl
  have g10 : XOR_KEY1.getD 0 0 = 132 := rfl
  have g11 : XOR_KEY1.getD 1 0 = 34 := rfl
  have g12 : XOR_KEY1.getD 2 0 = 233 := rfl
  have g13 : XOR_KEY1.getD 3 0 = 173 := rfl
  have g20 : XOR_KEY2.getD 0 0 = 183 := rfl
  have g21 : XOR_KEY2.getD 1 0 = 143 := rfl
  have g22 : XOR_KEY2.getD 2 0 = 255 := rfl
  have g23 : XOR_KEY2.getD 3 0 = 20 := rfl
  have K10 : u32_from_bytes XOR_KEY1 % 256 = 132 := by decide
  have K11 : u32_from_bytes XOR_KEY1 / 256 % 256 = 34 := by decide
  have K12 : u32_from_bytes XOR_KEY1 / 65536 % 256 = 233 := by decide
  have K13 : u32_from_bytes XOR_KEY1 / 16777216 % 256 = 173 := by decide
  have K20 : u32_from_bytes XOR_KEY2 % 256 = 183 := by decide
  have K21 : u32_from_bytes XOR_KEY2 / 256 % 256 = 143 := by decide
  have K22 : u32_from_bytes XOR_KEY2 / 65536 % 256 = 255 := by decide
  have K23 : u32_from_bytes XOR_KEY2 / 16777216 % 256 = 20 := by decide
  by_cases hk : o / 4 % 2 = 0
  · have hif : (o / 4 % 2 == 0) = true := by simp [hk]
    constructor
    · rw [hd, hu]
      simp [hif, bytes_from_u32_xor, e0, e1, e2, e3, K10, K11, K12, K13,
        keyByte, selectKey, ho, m1, m2, m3, d1, d2, d3, g10, g11, g12, g13]
      decide
    · rw [hb, hu]
      simp [hif, bytes_from_u32_xor, e0, e1, e2, e3, K10, K11, K12, K13,
        ho, m1, m2, m3, g10, g11, g12, g13]
      decide
  · have hif : (o / 4 % 2 == 0) = false := by
      have hk1 : o / 4 % 2 = 1 := by omega
      simp [hk1]
    constructor
    · rw [hd, hu]
      simp [hif, bytes_from_u32_xor, e0, e1, e2, e3, K20, K21, K22, K23,
        keyByte, selectKey, ho, m1, m2, m3, d1, d2, d3, g20, g21, g22, g23]
      decide
    · rw [hb, hu]
      simp [hif, bytes_from_u32_xor, e0, e1, e2, e3, K20, K21, K22, K23,
        ho, m1, m2, m3, g20, g21, g22, g23]
      decide

theorem C2_bytewise_wordwise_equiv_witness :
    decrypt [0x12, 0x34, 0x56, 0x78] 4 = u32Decrypt [0x12, 0x34, 0x56, 0x78] 4 ∧
    byteByByteDecrypt [0x12, 0x34, 0x56, 0x78] 4 =
      u32Decrypt [0x12, 0x34, 0x56, 0x78] 4 :=
  C2_bytewise_wordwise_equiv 4 0x12 0x34 0x56 0x78 (by decide) (by decide)
    (by decide) (by decide) (by decide)

/-- The literal text that opens every match of the pattern
`-filter="[^"]*"` used by `update_filter_in_file`. -/
def filterLit : List Char := "-filter=\"".data

/-- Drops `lit` from the front of `s` when `s` starts with it, returning the
remainder; `none` otherwise. -/
def stripLit : List Char → List Char → Option (List Char)
  | [], s => some s
  | _ :: _, [] => none
  | c :: lit, d :: s => if c == d then stripLit lit s else none

/-- Consumes the `[^"]*"` part of the pattern: splits off the characters up
to and including the next double quote; `none` when no closing quote
remains. -/
def closeQuoteSplit : List Char → Option (List Char × List Char)
  | [] => none
  | c :: rest =>
    if c == '"' then some ([c], rest)
    else
      match closeQuoteSplit rest with
      | none => none
      | some (pre, after) => some (c :: pre, after)

/-- When the pattern `-filter="[^"]*"` matches at the head of `s`, returns
the matched text (group 0 of the match) and the remainder of `s` after
it. -/
def matchFilterSplit (s : List Char) : Option (List Char × List Char) :=
  match stripLit filterLit s with
  | none => none
  | some rest =>
    match closeQuoteSplit rest with
    | none => none
    | some (pre, after) => some (filterLit ++ pre, after)

/-- One item of a parsed `re.sub` replacement template: a literal character
or a reference to group 0, the whole match — the pattern has no other
groups. -/
inductive Titem where
  | lit (c : Char)
  | ref0
  deriving DecidableEq

/-- The single-character escapes recognized in replacement templates:
`\a`, `\b`, `\f`, `\n`, `\r`, `\t`, `\v` and `\\`. -/
def escChar (c : Char) : Option Char :=
  if c == 'a' then some (Char.ofNat 7)
  else if c == 'b' then some (Char.ofNat 8)
  else if c == 'f' then some (Char.ofNat 12)
  else if c == 'n' then some (Char.ofNat 10)
  else if c == 'r' then some (Char.ofNat 13)
  else if c == 't' then some (Char.ofNat 9)
  else if c == 'v' then some (Char.ofNat 11)
  else if c == '\\' then some '\\'
  else none

/-- ASCII letters — an unrecognized letter escape in a template raises. -/
def isAsciiLetter (c : Char) : Bool :=
  ('a' ≤ c && c ≤ 'z') || ('A' ≤ c && c ≤ 'Z')

/-- Octal digits. -/
def isOctDigit (c : Char) : Bool := '0' ≤ c && c ≤ '7'

/-- Numeric value of a decimal or octal digit character. -/
def digitVal (c : Char) : Nat := c.toNat - 48

/-- ASCII whitespace, as stripped by Python's `int` around a group name. -/
def wsChar (c : Char) : Bool :=
  c == ' ' || c == '\t' || c == '\n' || c == '\r' ||
    c == Char.ofNat 11 || c == Char.ofNat 12

/-- Strips leading and trailing whitespace. -/
def trimWs (s : List Char) : List Char :=
  ((s.dropWhile wsChar).reverse.dropWhile wsChar).reverse

/-- Value of a nonempty digit sequence continued from `acc`, with single
underscores allowed between digits, as inside Python decimal literals. -/
def digitsUVal (acc : Nat) : List Char → Option Nat
  | [] => some acc
  | c :: rest =>
    if c.isDigit then digitsUVal (acc * 10 + digitVal c) rest
    else if c == '_' then
      match rest with
      | [] => none
      | d :: rest2 =>
        if d.isDigit then digitsUVal (acc * 10 + digitVal d) rest2 else none
    else none

/-- Value of a digit sequence that must start with a digit. -/
def digitsU : List Char → Option Nat
  | [] => none
  | c :: rest => if c.isDigit then digitsUVal (digitVal c) rest else none

/-- Modelled after Python's `int` on a group name: optional surrounding
ASCII whitespace, an optional sign, then decimal digits with single
underscores allowed between them. -/
def intOfName (s : List Char) : Option Int :=
  match trimWs s with
  | [] => none
  | c :: rest =>
    if c == '+' then (digitsU rest).map Int.ofNat
    else if c == '-' then (digitsU rest).map (fun n => -(n : Int))
    else (digitsU (c :: rest)).map Int.ofNat

/-- Splits a character list at the first closing angle bracket, returning
the name before it and the remainder after it. -/
def splitAtGt : List Char → Option (List Char × List Char)
  | [] => none
  | c :: rest =>
    if c == '>' then some ([], rest)
    else
      match splitAtGt rest with
      | none => none
      | some (n, after) => some (c :: n, after)

/-- Parses the `\g<name>` form of a template group reference, given the
characters after `\g<`. The pattern has no capture groups, so only names
that Python's `int` reads as zero — group 0, the whole match — are valid;
every other name raises (invalid reference, unknown name, bad character or
unterminated name), modelled as `none`. -/
def parseGroupRef (s : List Char) : Option (List Char) :=
  match splitAtGt s with
  | none => none
  | some (name, after) =>
    match intOfName name with
    | none => none
    | some v => if v == 0 then some after else none

/-- Embeds CPython's parsing of a string replacement template for a pattern
with no capture groups (`re._parser.parse_template`): plain characters are
literals; a backslash starts an escape — the letter escapes of `escChar`
map to control characters, an unrecognized ASCII letter raises, a backslash
before any other non-digit character keeps both characters, `\0` with up to
two octal digits and three octal digits up to `\377` are character codes,
any other digit run is a group reference and raises here (no groups exist),
as do a lone trailing backslash and all invalid `\g<name>` forms. `none`
models the exception `re.sub` raises. `fuel` bounds the recursion; every
step consumes at least one character. -/
def parseTemplateAux : Nat → List Char → Option (List Titem)
  | 0, _ => none
  | _ + 1, [] => some []
  | fuel + 1, c :: rest =>
    if c != '\\' then
      (parseTemplateAux fuel rest).map (fun t => Titem.lit c :: t)
    else
      match rest with
      | [] => none
      | d :: rest2 =>
        if d == 'g' then
          match rest2 with
          | [] => none
          | e :: rest3 =>
            if e == '<' then
              match parseGroupRef rest3 with
              | none => none
              | some after =>
                (parseTemplateAux fuel after).map (fun t => Titem.ref0 :: t)
            else none
        else if d == '0' then
          match rest2 with
          | [] => some [Titem.lit (Char.ofNat 0)]
          | o1 :: rest3 =>
            if isOctDigit o1 then
              match rest3 with
              | [] => some [Titem.lit (Char.ofNat (digitVal o1))]
              | o2 :: rest4 =>
                if isOctDigit o2 then
                  (parseTemplateAux fuel rest4).map
                    (fun t => Titem.lit (Char.ofNat (digitVal o1 * 8 + digitVal o2)) :: t)
                else
                  (parseTemplateAux fuel rest3).map
                    (fun t => Titem.lit (Char.ofNat (digitVal o1)) :: t)
            else
              (parseTemplateAux fuel rest2).map (fun t => Titem.lit (Char.ofNat 0) :: t)
        else if d.isDigit then
          match rest2 with
          | [] => none
          | d2 :: rest3 =>
            if d2.isDigit then
              match rest3 with
              | [] => none
              | d3 :: rest4 =>
                if isOctDigit d && isOctDigit d2 && isOctDigit d3 then
                  let v := digitVal d * 64 + digitVal d2 * 8 + digitVal d3
                  if v ≤ 255 then
                    (parseTemplateAux fuel rest4).map
                      (fun t => Titem.lit (Char.ofNat v) :: t)
                  else none
                else none
            else none
        else
          match escChar d with
          | some e => (parseTemplateAux fuel rest2).map (fun t => Titem.lit e :: t)
          | none =>
            if isAsciiLetter d then none
            else
              (parseTemplateAux fuel rest2).map
                (fun t => Titem.lit '\\' :: Titem.lit d :: t)

/-- Expands a parsed replacement template for one match: literal characters
stay, a group-0 reference inserts the matched text. -/
def expandTemplate (items : List Titem) (matched : List Char) : List Char :=
  match items with
  | [] => []
  | Titem.lit c :: rest => c :: expandTemplate rest matched
  | Titem.ref0 :: rest => matched ++ expandTemplate rest matched

/-- Embeds the scanning loop of `re.sub` for the fixed pattern
`-filter="[^"]*"`: leftmost non-overlapping matches are replaced by the
expanded template and scanning resumes after each match. `fuel` bounds the
recursion; `fuel = s.length` suffices because every step consumes at least
one character of `s`. -/
def subAllAux (items : List Titem) : Nat → List Char → List Char
  | 0, s => s
  | _ + 1, [] => []
  | fuel + 1, c :: rest =>
    match matchFilterSplit (c :: rest) with
    | some (matched, after) =>
      expandTemplate items matched ++ subAllAux items fuel after
    | none => c :: subAllAux items fuel rest

/-- Embeds `re.sub(r'-filter="[^"]*"', repl, content)` (line 47): the
replacement template is processed first — its errors are raised whether or
not the pattern matches anywhere — and then every match is replaced by the
expanded template. `none` models a raised exception. -/
def reSubFilter (repl content : String) : Option String :=
  match parseTemplateAux (repl.data.length + 1) repl.data with
  | none => none
  | some items => some (String.mk (subAllAux items content.data.length content.data))

/-- Embeds line 46: the replacement string built from `new_filter`. -/
def mkReplacement (new_filter : String) : String :=
  "-filter=\"" ++ new_filter ++ "\""

/-- Outcome of the write in `update_filter_in_file` (lines 50-51). Because
`open(filepath, 'w')` truncates the file before any data is written, an
exception while writing leaves the file holding only the first `n`
characters of the new content; an exception from `open` itself leaves the
file untouched. -/
inductive WriteResult where
  | ok
  | errAtOpen
  | errAfter (n : Nat)
  deriving DecidableEq

/-- Embeds `update_filter_in_file` (lines 38-55). File input and output are
modelled explicitly: `file` is the target's readable content (`none` when
reading raises) and `w` is the write outcome. The result pairs the file's
content afterwards with the function's return value; every exception —
reading, the replacement-template error raised inside `re.sub`, or writing
— is caught and `False` returned (lines 53-55), and the file is opened for
writing only when the substitution changed the content (lines 49-52). -/
def update_filter_in_file (file : Option String) (w : WriteResult)
    (new_filter : String) : Option String × Bool :=
  match file with
  | none => (none, false)
  | some content =>
    match reSubFilter (mkReplacement new_filter) content with
    | none => (some content, false)
    | some new_content =>
      if new_content ≠ content then
        match w with
        | WriteResult.ok => (some new_content, true)
        | WriteResult.errAtOpen => (some content, false)
        | WriteResult.errAfter n =>
          (some (String.mk (new_content.data.take n)), false)
      else (some content, false)

/-- C10 counterexample: with the file readable as `-filter="a"` and the
write raising right after `open(filepath, 'w')` truncated the file, the
function returns `False` yet the file no longer holds its original content
— refuting the claim that on any exception while reading or writing the
file is left as-is. -/
theorem C10_counterexample :
    (update_filter_in_file (some "-filter=\"a\"") (WriteResult.errAfter 0) "b").2
        = false ∧
    (update_filter_in_file (some "-filter=\"a\"") (WriteResult.errAfter 0) "b").1
        ≠ some "-filter=\"a\"" ∧
    (update_filter_in_file (some "-filter=\"a\"") (WriteResult.errAfter 0) "b").1
        = some "" := by
  decide

/-- C10 (amended): `update_filter_in_file` opens its target for writing
only when the substitution changed the content, and returns `True` exactly
when it wrote the changed content completely; on the unchanged path, on a
read exception and on a replacement-template error the file is left as-is
and `False` is returned; an exception during the write also returns
`False`, but the file is then left holding a prefix of the new content —
`open` with mode `w` truncates before writing — rather than its original
content. -/
theorem C10_update_filter_frame (file : Option String) (w : WriteResult)
    (nf : String) :
    ((update_filter_in_file file w nf).2 = true ↔
      (∃ c n, file = some c ∧
        reSubFilter (mkReplacement nf) c = some n ∧ n ≠ c ∧
        w = WriteResult.ok ∧
        (update_filter_in_file file w nf).1 = some n)) ∧
    (file = none → update_filter_in_file file w nf = (none, false)) ∧
    (∀ c, file = some c → reSubFilter (mkReplacement nf) c = none →
      update_filter_in_file file w nf = (some c, false)) ∧
    (∀ c, file = some c → reSubFilter (mkReplacement nf) c = some c →
      update_filter_in_file file w nf = (some c, false)) ∧
    (∀ c n, file = some c → reSubFilter (mkReplacement nf) c = some n →
      n ≠ c → w = WriteResult.errAtOpen →
      update_filter_in_file file w nf = (some c, false)) ∧
    (∀ c n k, file = some c → reSubFilter (mkReplacement nf) c = some n →
      n ≠ c → w = WriteResult.errAfter k →
      update_filter_in_file file w nf =
        (some (String.mk (n.data.take k)), false)) := by
  refine ⟨?_, ?_, ?_, ?_, ?_, ?_⟩
  · cases file with
    | none => simp [update_filter_in_file]
    | some c =>
      cases hr : reSubFilter (mkReplacement nf) c with
      | none => simp [update_filter_in_file, hr]
      | some n =>
        by_cases hch : n = c
        · subst hch
          cases w <;> simp [update_filter_in_file, hr]
        · cases w <;> simp [update_filter_in_file, hr, hch]
  · rintro rfl
    simp [update_filter_in_file]
  · rintro c rfl hnone
    simp [update_filter_in_file, hnone]
  · rintro c rfl hsame
    simp [update_filter_in_file, hsame]
  · rintro c n rfl hsub hne rfl
    simp [update_filter_in_file, hsub, hne]
  · rintro c n k rfl hsub hne rfl
    simp [update_filter_in_file, hsub, hne]

theorem C10_update_filter_frame_witness :
    (update_filter_in_file (some "run -filter=\"old\" now") WriteResult.ok
        "new").2 = true :=
  ((C10_update_filter_frame (some "run -filter=\"old\" now") WriteResult.ok
      "new").1).mpr
    ⟨"run -filter=\"old\" now", "run -filter=\"new\" now", rfl, by decide,
      by decide, rfl, by decide⟩
